import Mathlib

/-!
Shallow embedding of the dashboard-synchronization logic of the
fishing-toolkit repository (historical dashboard, nowcast dashboard and the
screen-navigation/upload controller), together with proofs about the
behaviour the specification ascribes to it.

JavaScript numbers are modelled as rationals (the inspected arithmetic is
comparisons, max/min, absolute value and ceiling, on which the two agree
for the data in scope); JavaScript objects in insertion order are modelled
as association lists; fallible operations return `Option`.
-/

namespace FishingToolkit

/-- A storm record as held in `this.typhoonData` of the historical
dashboard: only the fields the summary-card computation reads. -/
structure Storm where
  name : String
  averageBoats : ℚ
  minDistance : ℚ
  maxSpeed : ℚ
deriving Repr, DecidableEq

/-- `Array.prototype.reduce` with no initial value specialised to the
callback `(min, t) => f t < f min ? t : min`: the accumulator starts at the
first element and is replaced only on a strictly smaller key, so ties keep
the earlier element. -/
def reduceMinBy {α : Type} (f : α → ℚ) (acc : α) : List α → α
  | [] => acc
  | t :: ts => reduceMinBy f (if f t < f acc then t else acc) ts

/-- `Object.values(m)` on an insertion-ordered object. -/
def objectValues {α : Type} (m : List (String × α)) : List α :=
  m.map Prod.snd

/-- The most-disruptive computation of
`TyphoonDashboard.updateSummaryCards` (historical dashboard):
`Object.values(this.typhoonData).reduce((min, typhoon) =>
typhoon.averageBoats < min.averageBoats ? typhoon : min)`.
`reduce` on an empty array throws, modelled as `none`. -/
def mostDisruptive (typhoonData : List (String × Storm)) : Option Storm :=
  match objectValues typhoonData with
  | [] => none
  | x :: xs => some (reduceMinBy (fun t => t.averageBoats) x xs)

/-- A JavaScript value as it can appear in the per-ground distance array
handed to `getClosestGround`: a number or a string. -/
inductive JSVal where
  | num (q : ℚ)
  | str (s : String)
deriving Repr, DecidableEq

/-- Decimal digits folded into a natural number. -/
def digitsToNat (cs : List Char) : ℕ :=
  cs.foldl (fun a c => a * 10 + (c.toNat - 48)) 0

/-- A non-empty all-digit character sequence, or `none`. -/
def parseDigitSeq (cs : List Char) : Option ℕ :=
  if cs ≠ [] ∧ cs.all Char.isDigit then some (digitsToNat cs) else none

/-- JavaScript `ToNumber` on a decimal string of the shape `D+` or `D+.D+`
(the shapes occurring in the distance data); any other string is NaN,
modelled as `none`. -/
def strToNumber (s : String) : Option ℚ :=
  match s.splitOn "." with
  | [w] => (parseDigitSeq w.toList).map (fun n => (n : ℚ))
  | [w, f] =>
    match parseDigitSeq w.toList, parseDigitSeq f.toList with
    | some n, some m => some ((n : ℚ) + (m : ℚ) / ((10 : ℚ) ^ f.length))
    | _, _ => none
  | _ => none

/-- JavaScript `ToNumber` coercion applied by `Math.min` to each argument;
`none` models NaN. -/
def toNumber : JSVal → Option ℚ
  | JSVal.num q => some q
  | JSVal.str s => strToNumber s

/-- `ToNumber` applied to every element; `none` as soon as one is NaN. -/
def toNumbers : List JSVal → Option (List ℚ)
  | [] => some []
  | v :: vs =>
    match toNumber v, toNumbers vs with
    | some q, some qs => some (q :: qs)
    | _, _ => none

/-- Minimum of a non-empty list, seed first: `xs.foldl min x`. -/
def minimumOfList (x : ℚ) (xs : List ℚ) : ℚ :=
  xs.foldl min x

/-- `Math.min(...args)`: all arguments are coerced to numbers and the
numeric minimum is taken.  `none` stands for the two non-finite outcomes
(NaN from an unparsable argument, `Infinity` from an empty spread); under
strict equality neither matches any array element, exactly as in the
source, so both collapse to the same `-1` lookup result below. -/
def jsMathMin (l : List JSVal) : Option ℚ :=
  match toNumbers l with
  | some (x :: xs) => some (minimumOfList x xs)
  | _ => none

/-- JavaScript strict equality (`===`) on the values in scope: a number
never equals a string. -/
def jsStrictEq : JSVal → JSVal → Bool
  | JSVal.num a, JSVal.num b => decide (a = b)
  | JSVal.str a, JSVal.str b => decide (a = b)
  | _, _ => false

/-- `Array.prototype.indexOf` running from position `i`. -/
def jsIndexOfFrom : List JSVal → JSVal → Int → Int
  | [], _, _ => -1
  | x :: xs, v, i => if jsStrictEq x v then i else jsIndexOfFrom xs v (i + 1)

/-- `Array.prototype.indexOf`: first index whose element is strictly equal
to the argument, `-1` when there is none. -/
def jsIndexOf (l : List JSVal) (v : JSVal) : Int :=
  jsIndexOfFrom l v 0

/-- `TyphoonDashboard.getClosestGround` (nowcast dashboard):
`const minDistance = Math.min(...distances);
const groundIndex = distances.indexOf(minDistance);
return "Ground " + groundIndex;`. -/
def getClosestGround (distances : List JSVal) : String :=
  let idx : Int :=
    match jsMathMin distances with
    | some m => jsIndexOf distances (JSVal.num m)
    | none => -1
  "Ground " ++ toString idx

/-- Per-ground entry of `typhoonData.boatData` read by the dual-axis
chart. -/
structure GroundBoatData where
  baseline : ℚ
  difference : ℚ
deriving Repr, DecidableEq

/-- The fixed ground keys iterated by `updateBoatDifferenceChart`. -/
def grounds : List String :=
  ["ground0", "ground1", "ground2", "ground3", "ground4"]

/-- Maximum of a non-empty list, seed first: `xs.foldl max x`. -/
def maximumOfList (x : ℚ) (xs : List ℚ) : ℚ :=
  xs.foldl max x

/-- The four axis bounds written into
`this.charts.boatDifference.options.scales`. -/
structure DualAxisScales where
  rightMax : ℤ
  rightMin : ℤ
  leftMax : ℤ
  leftMin : ℤ
deriving Repr, DecidableEq

/-- The scale computation of `updateBoatDifferenceChart`:
`maxBaseline = Math.max(...baselineData)`,
`minDifference = Math.min(...differenceData)`,
`maxDifference = Math.max(...differenceData)`,
right axis `±Math.ceil(maxBaseline * 1.2)`, and with
`absMaxDifference = Math.max(Math.abs(minDifference), Math.abs(maxDifference))`
left axis `±Math.ceil(absMaxDifference * 1.2)`.  `none` models the
non-finite spread of an empty series (never produced by the caller, which
always maps over the five fixed grounds). -/
def dualAxisScales (baselineData differenceData : List ℚ) : Option DualAxisScales :=
  match baselineData, differenceData with
  | b0 :: bs, d0 :: ds =>
    let maxBaseline := maximumOfList b0 bs
    let minDifference := minimumOfList d0 ds
    let maxDifference := maximumOfList d0 ds
    let absMaxDifference := max |minDifference| |maxDifference|
    some { rightMax := ⌈maxBaseline * (6 / 5 : ℚ)⌉
           rightMin := -⌈maxBaseline * (6 / 5 : ℚ)⌉
           leftMax := ⌈absMaxDifference * (6 / 5 : ℚ)⌉
           leftMin := -⌈absMaxDifference * (6 / 5 : ℚ)⌉ }
  | _, _ => none

/-- The series built by `updateBoatDifferenceChart`:
`grounds.map(g => boatData[g] ? boatData[g].baseline : 0)` and the same
with `difference`. -/
def mkBoatSeries (boatData : String → Option GroundBoatData) : List ℚ × List ℚ :=
  (grounds.map fun g =>
     match boatData g with
     | some gd => gd.baseline
     | none => 0,
   grounds.map fun g =>
     match boatData g with
     | some gd => gd.difference
     | none => 0)

/-- `TyphoonDashboard.updateBoatDifferenceChart` (historical dashboard),
restricted to its observable output: the two committed data series and the
dual-axis scale bounds. -/
def updateBoatDifferenceChart (boatData : String → Option GroundBoatData) :
    List ℚ × List ℚ × Option DualAxisScales :=
  let series := mkBoatSeries boatData
  (series.1, series.2, dualAxisScales series.1 series.2)

/-- The slice of `TyphoonDashboard` (historical) state touched by data
loading and year selection. -/
structure DashboardState where
  typhoonData : List (String × Storm)
  fishingGrounds : List String
  fishingGroundsGeoJSON : Option String
  currentTyphoon : Option String
  currentYear : Option Int
deriving Repr, DecidableEq

/-- The constructor's field initialisers: empty data, no selection. -/
def initialDashboardState : DashboardState :=
  { typhoonData := []
    fishingGrounds := []
    fishingGroundsGeoJSON := none
    currentTyphoon := none
    currentYear := none }

/-- The keys offered by `populateTyphoonSelector`: one option per entry of
`this.typhoonData`, in iteration order. -/
def selectableStorms (st : DashboardState) : List String :=
  st.typhoonData.map Prod.fst

/-- A `get_dashboard_data` / `get_dashboard_data_by_year` response that
has a `typhoons` field.  An empty `typhoons` object is truthy in
JavaScript and is modelled as `typhoons = []`. -/
structure DashboardBundle where
  typhoons : List (String × Storm)
  fishing_grounds : List String
  fishing_grounds_geojson : Option String
  latest_year : Option Int
deriving Repr, DecidableEq

/-- What one iteration of the retry loop in
`TyphoonDashboard.loadDashboardData` observes: the bridge is not attached
yet, the awaited call threw, or a bundle arrived. -/
inductive LoadEvent where
  | apiUnavailable
  | fetchError
  | fetchSuccess (bundle : DashboardBundle)

/-- Result of a `loadDashboardData` run: the final dashboard state, the
`setTimeout` delays performed (in milliseconds, in order), and the number
of loop iterations executed.  The function always returns a value: every
failure is caught inside the loop, none is propagated. -/
structure LoadResult where
  state : DashboardState
  delays : List ℕ
  attempts : ℕ
deriving Repr, DecidableEq

/-- The body of the retry loop `for (attempt = 1; attempt <= 5; attempt++)`
of `loadDashboardData`, driven by the environment `env` giving each
attempt's outcome.  `fuel` is the number of iterations the loop still
allows; the loop starts with `fuel = 5`, `attempt = 1`.
On `apiUnavailable` the body waits 1000 ms and continues; on a successful
response it commits the bundle when `typhoons` is non-empty, otherwise
explicitly stores empty data, and returns; on a caught error it stores
empty data and returns when `attempt === 5`, otherwise waits 1000 ms and
retries. -/
def loadAttemptLoop (env : ℕ → LoadEvent) : ℕ → ℕ → DashboardState → LoadResult
  | 0, _, st => { state := st, delays := [], attempts := 0 }
  | fuel + 1, attempt, st =>
    match env attempt with
    | LoadEvent.apiUnavailable =>
      let r := loadAttemptLoop env fuel (attempt + 1) st
      { r with delays := 1000 :: r.delays, attempts := r.attempts + 1 }
    | LoadEvent.fetchSuccess b =>
      if b.typhoons ≠ [] then
        { state :=
            { st with
              typhoonData := b.typhoons
              fishingGrounds := b.fishing_grounds
              fishingGroundsGeoJSON := b.fishing_grounds_geojson
              currentYear := b.latest_year }
          delays := []
          attempts := 1 }
      else
        { state :=
            { st with
              typhoonData := []
              fishingGrounds := []
              fishingGroundsGeoJSON := none }
          delays := []
          attempts := 1 }
    | LoadEvent.fetchError =>
      if attempt = 5 then
        { state :=
            { st with
              typhoonData := []
              fishingGrounds := []
              fishingGroundsGeoJSON := none }
          delays := []
          attempts := 1 }
      else
        let r := loadAttemptLoop env fuel (attempt + 1) st
        { r with delays := 1000 :: r.delays, attempts := r.attempts + 1 }

/-- `TyphoonDashboard.loadDashboardData`: up to five attempts starting at
attempt 1. -/
def loadDashboardData (env : ℕ → LoadEvent) (st : DashboardState) : LoadResult :=
  loadAttemptLoop env 5 1 st

/-- The commit performed by `TyphoonDashboard.loadTyphoonsByYear(year)`
once its awaited response is available.  `none` models both a thrown
error (caught and logged) and a response without a truthy `typhoons`
field; in either case nothing is written.  On a commit the dataset is
replaced wholesale, `currentYear` becomes the requested year, and the
selection is reset to the first key of the new dataset, or to `null` when
it is empty. -/
def commitYearData (st : DashboardState) (year : Int) (resp : Option DashboardBundle) :
    DashboardState :=
  match resp with
  | none => st
  | some b =>
    let st' :=
      { st with
        typhoonData := b.typhoons
        fishingGrounds := b.fishing_grounds
        fishingGroundsGeoJSON := b.fishing_grounds_geojson
        currentYear := some year }
    match b.typhoons with
    | [] => { st' with currentTyphoon := none }
    | (k, _) :: _ => { st' with currentTyphoon := some k }

/-- A sequence of fetch completions applied in resolution order: each
entry is the requested year together with its response, and each runs the
commit continuation of `loadTyphoonsByYear` when it resolves.  The source
keeps no request generation, so every resolution commits. -/
def resolveYearFetches (st : DashboardState)
    (resolutions : List (Int × Option DashboardBundle)) : DashboardState :=
  resolutions.foldl (fun s yr => commitYearData s yr.1 yr.2) st

/-- A call through the PyWebView bridge issued by a dashboard event
handler. -/
inductive ApiCall where
  | getDashboardDataByYear (year : Int)
  | getBoatDetectionsGeojson (year : Int) (maxCount : ℕ)
  | getTyphoonData (uuid : String)
  | getTyphoonDates (uuid : String)
deriving Repr, DecidableEq

/-- Bridge calls of the historical dashboard's typhoon-selector `change`
handler: it only sets `currentTyphoon` and re-renders the chart and the
summary cards. -/
def historicalTyphoonChangeCalls (_uuid : String) : List ApiCall :=
  []

/-- Bridge calls of the historical dashboard's year-selector `change`
handler, i.e. of `loadTyphoonsByYear(year)`: it always awaits
`get_dashboard_data_by_year(year)` first, and when the response commits it
also calls `get_boat_detections_geojson(year, 5000)` via
`loadBoatDetections`. -/
def loadTyphoonsByYearCalls (year : Int) (resp : Option DashboardBundle) : List ApiCall :=
  ApiCall.getDashboardDataByYear year ::
    match resp with
    | some _ => [ApiCall.getBoatDetectionsGeojson year 5000]
    | none => []

/-- Bridge calls of the nowcast dashboard's typhoon-selector `change`
handler: `loadTyphoonData(uuid)` awaits `get_typhoon_data(uuid)`, then
`updateDateSelector()` awaits `get_typhoon_dates(uuid)`. -/
def nowcastTyphoonChangeCalls (uuid : String) : List ApiCall :=
  [ApiCall.getTyphoonData uuid, ApiCall.getTyphoonDates uuid]

/-- Bridge calls of the nowcast dashboard's date-selector `change`
handler: it reloads the current typhoon via `loadTyphoonData`, which
awaits `get_typhoon_data(currentTyphoon)`. -/
def nowcastDateChangeCalls (currentTyphoon : String) : List ApiCall :=
  [ApiCall.getTyphoonData currentTyphoon]

/-- The slice of dashboard state touched by `toggleBoatDetections`:
whether the boat-detections layer has been built, the visibility flag,
whether the layer is attached to the map, and the toggle button text. -/
structure BoatLayerView where
  layerBuilt : Bool
  visible : Bool
  attachedToMap : Bool
  toggleBtnText : String
deriving Repr, DecidableEq

/-- `TyphoonDashboard.toggleBoatDetections`: a no-op when no layer has
been built; otherwise it flips `boatDetectionsVisible`, attaches the
already-built layer to the map when the new flag is true and removes it
otherwise, and updates the button label.  The returned list holds the
bridge calls issued, which is always empty: no fetch happens here. -/
def toggleBoatDetections (s : BoatLayerView) : BoatLayerView × List ApiCall :=
  if s.layerBuilt = false then (s, [])
  else
    let vis := !s.visible
    ({ s with
       visible := vis
       attachedToMap := vis
       toggleBtnText := if vis then "Hide Boats" else "Show Boats" }, [])

/-- JavaScript `parseInt(s, 10)` on the inputs in scope: an optional minus
sign followed by a longest digit prefix; no digit gives NaN (`none`). -/
def jsParseInt (s : String) : Option Int :=
  match s.toList with
  | '-' :: rest =>
    match rest.takeWhile Char.isDigit with
    | [] => none
    | ds => some (-(digitsToNat ds : Int))
  | cs =>
    match cs.takeWhile Char.isDigit with
    | [] => none
    | ds => some (digitsToNat ds : Int)

/-- The two data sources of the nowcast configuration screen. -/
inductive DataSource where
  | ibtracs
  | synthetic
deriving Repr, DecidableEq

/-- The day-count computation at the start of
`CycloneToolkitApp.runNowcastAnalysis`: only for the IBTrACS source, the
input's value is `parseInt`ed and, when NaN or outside `1..90`, silently
replaced by the default `7` (a console warning, no alert); a missing input
element also yields `7`.  For the synthetic source `days` stays `null`. -/
def computeDays (dataSource : DataSource) (daysInput : Option String) : Option Int :=
  match dataSource with
  | DataSource.ibtracs =>
    match daysInput with
    | some v =>
      match jsParseInt v with
      | none => some 7
      | some d => if d < 1 ∨ 90 < d then some 7 else some d
    | none => some 7
  | DataSource.synthetic => none

/-- A backend call issued by the screen controller. -/
inductive NowcastCall where
  | uploadCycloneTrack (filename : String)
  | runNowcast (country : String) (localZipPath : Option String) (days : Option Int)
deriving Repr, DecidableEq

/-- The user-visible effects of a controller action: inline alerts raised
and backend calls made, each in order. -/
structure Effects where
  alerts : List String
  backendCalls : List NowcastCall
deriving Repr, DecidableEq

/-- The state of the cyclone-track file input: the selected file name, if
any, and the label text shown next to it. -/
structure FileInputState where
  files : Option String
  displayText : String
deriving Repr, DecidableEq

/-- ASCII lower-casing of one character, as `String.toLowerCase` acts on
the file names in scope. -/
def lowerChar (c : Char) : Char :=
  if 'A' ≤ c ∧ c ≤ 'Z' then Char.ofNat (c.toNat + 32) else c

/-- JavaScript `name.toLowerCase()` on the character sequence. -/
def jsToLowerCase (s : String) : String :=
  String.mk (s.data.map lowerChar)

/-- JavaScript `s.endsWith(suffix)` on the character sequence. -/
def jsEndsWith (s suffix : String) : Bool :=
  List.isSuffixOf suffix.data s.data

/-- The alert text of the file-input `change` handler. -/
def zipChangeAlert : String :=
  "Please select a ZIP file containing a shapefile (.zip)."

/-- The alert text of the Proceed-button re-validation. -/
def zipProceedAlert : String :=
  "Please select a ZIP file (.zip) containing a shapefile."

/-- The alert text raised when neither an uploaded file nor a drawn track
is available. -/
def selectOrDrawAlert : String :=
  "Please select a shapefile or draw a track before proceeding."

/-- The `change` handler of `trackFileInput` in
`CycloneToolkitApp.setupSyntheticModal`: with a chosen file whose
lower-cased name ends in `.zip` the label shows the name and the file
stays selected; otherwise the input is cleared, the label resets and an
alert is raised.  No backend call is made either way. -/
def trackFileInputChange (chosen : Option String) : FileInputState × Effects :=
  match chosen with
  | some name =>
    if jsEndsWith (jsToLowerCase name) ".zip" then
      ({ files := some name, displayText := name }, { alerts := [], backendCalls := [] })
    else
      ({ files := none, displayText := "Choose File" },
       { alerts := [zipChangeAlert], backendCalls := [] })
  | none =>
    ({ files := none, displayText := "Choose File" }, { alerts := [], backendCalls := [] })

/-- Inputs read by `CycloneToolkitApp.runNowcastAnalysis`: the selected
country, the active data source, the raw day-count input value, the file
currently held by `trackFileInput`, the saved drawn-track path if any,
and the shapefile path the backend returns for an upload. -/
structure NowcastConfig where
  country : String
  dataSource : DataSource
  daysInput : Option String
  trackFiles : Option String
  savedTrackPath : Option String
  uploadPath : String
deriving Repr, DecidableEq

/-- `CycloneToolkitApp.runNowcastAnalysis`, restricted to its alerts and
backend calls.  For the synthetic source: with neither a file nor a saved
drawn track it alerts and returns before any backend call; a saved drawn
track takes priority over an uploaded file; an uploaded file is forwarded
to `upload_cyclone_track` and the returned path is used.  In every
non-blocked case `run_nowcast_analysis(country, null, localZipPath, days)`
is called. -/
def runNowcastAnalysis (c : NowcastConfig) : Effects :=
  let days := computeDays c.dataSource c.daysInput
  match c.dataSource with
  | DataSource.ibtracs =>
    { alerts := [], backendCalls := [NowcastCall.runNowcast c.country none days] }
  | DataSource.synthetic =>
    match c.trackFiles, c.savedTrackPath with
    | none, none =>
      { alerts := [selectOrDrawAlert], backendCalls := [] }
    | _, some p =>
      { alerts := [], backendCalls := [NowcastCall.runNowcast c.country (some p) days] }
    | some f, none =>
      { alerts := []
        backendCalls :=
          [NowcastCall.uploadCycloneTrack f,
           NowcastCall.runNowcast c.country (some c.uploadPath) days] }

/-- The Proceed-button `click` handler of the synthetic modal: with a
selected file it re-validates the `.zip` suffix (alerting and stopping on
failure) and then triggers `runNowcastAnalysis`; with no file it falls
back to a saved drawn track, and with neither it alerts and stops. -/
def syntheticProceed (c : NowcastConfig) : Effects :=
  match c.trackFiles with
  | some f =>
    if jsEndsWith (jsToLowerCase f) ".zip" then runNowcastAnalysis c
    else { alerts := [zipProceedAlert], backendCalls := [] }
  | none =>
    match c.savedTrackPath with
    | some _ => runNowcastAnalysis c
    | none => { alerts := [selectOrDrawAlert], backendCalls := [] }

/-- Concrete storm used in witnesses: not the minimum anywhere. -/
def stormA : Storm :=
  { name := "Amang", averageBoats := 5, minDistance := 12, maxSpeed := 85 }

/-- Concrete storm used in witnesses: first holder of the minimum
`averageBoats`. -/
def stormB : Storm :=
  { name := "Bising", averageBoats := 3, minDistance := 20, maxSpeed := 95 }

/-- Concrete storm used in witnesses: tied with `stormB` on
`averageBoats` but encountered later. -/
def stormC : Storm :=
  { name := "Chedeng", averageBoats := 3, minDistance := 7, maxSpeed := 60 }

/-- A dataset with a tie on the minimum `averageBoats`. -/
def tiedDataset : List (String × Storm) :=
  [("a", stormA), ("b", stormB), ("c", stormC)]

/-- A concrete `boatData` realising the series of C3's example. -/
def exampleBoatData : String → Option GroundBoatData
  | "ground0" => some { baseline := 10, difference := -50 }
  | "ground1" => some { baseline := 20, difference := 10 }
  | "ground2" => some { baseline := 30, difference := -5 }
  | "ground3" => some { baseline := 0, difference := 0 }
  | "ground4" => some { baseline := 5, difference := 200 }
  | _ => none

/-- An environment in which every load attempt throws. -/
def allErrorEnv : ℕ → LoadEvent :=
  fun _ => LoadEvent.fetchError

/-- The year-2020 response of the race scenario. -/
def bundle2020 : DashboardBundle :=
  { typhoons := [("t2020", stormA)]
    fishing_grounds := ["FG-2020"]
    fishing_grounds_geojson := none
    latest_year := some 2020 }

/-- The year-2021 response of the race scenario. -/
def bundle2021 : DashboardBundle :=
  { typhoons := [("t2021", stormB)]
    fishing_grounds := ["FG-2021"]
    fishing_grounds_geojson := none
    latest_year := some 2021 }

/-- A built, visible, attached boat-detections layer. -/
def builtVisibleLayer : BoatLayerView :=
  { layerBuilt := true
    visible := true
    attachedToMap := true
    toggleBtnText := "Hide Boats" }

/- Helper lemmas. -/

theorem cons_eq_append_cons {α : Type} {a b : α} {as l1 l2 : List α}
    (h : a :: as = l1 ++ b :: l2) : a = b ∨ a ∈ l1 := by
  cases l1 with
  | nil =>
    rw [List.nil_append, List.cons.injEq] at h
    exact Or.inl h.1
  | cons x xs =>
    rw [List.cons_append, List.cons.injEq] at h
    exact Or.inr (by rw [h.1]; exact List.mem_cons_self x xs)

/-- The reduce-with-strict-less accumulator splits its input into a
strictly greater prefix, the result, and a no-smaller suffix: it is the
first element attaining the minimum key. -/
theorem reduceMinBy_split {α : Type} (f : α → ℚ) (xs : List α) :
    ∀ acc : α,
      ∃ l1 l2,
        acc :: xs = l1 ++ reduceMinBy f acc xs :: l2 ∧
        (∀ t ∈ l1, f (reduceMinBy f acc xs) < f t) ∧
        (∀ t ∈ l2, f (reduceMinBy f acc xs) ≤ f t) := by
  induction xs with
  | nil =>
    intro acc
    refine ⟨[], [], ?_, ?_, ?_⟩ <;> simp [reduceMinBy]
  | cons y ys ih =>
    intro acc
    by_cases hy : f y < f acc
    · have hred : reduceMinBy f acc (y :: ys) = reduceMinBy f y ys := by
        simp [reduceMinBy, hy]
      obtain ⟨l1, l2, heq, h1, h2⟩ := ih y
      have hry : f (reduceMinBy f y ys) ≤ f y := by
        rcases cons_eq_append_cons heq with h | hmem
        · exact le_of_eq (congrArg f h).symm
        · exact le_of_lt (h1 y hmem)
      refine ⟨acc :: l1, l2, ?_, ?_, ?_⟩
      · rw [hred, List.cons_append, ← heq]
      · intro t ht
        rw [hred]
        rcases List.mem_cons.mp ht with rfl | ht'
        · exact lt_of_le_of_lt hry hy
        · exact h1 t ht'
      · intro t ht
        rw [hred]
        exact h2 t ht
    · have hred : reduceMinBy f acc (y :: ys) = reduceMinBy f acc ys := by
        simp [reduceMinBy, hy]
      obtain ⟨l1, l2, heq, h1, h2⟩ := ih acc
      cases l1 with
      | nil =>
        rw [List.nil_append, List.cons.injEq] at heq
        obtain ⟨har, hyl⟩ := heq
        refine ⟨[], y :: ys, ?_, ?_, ?_⟩
        · rw [List.nil_append, hred, ← har]
        · simp
        · intro t ht
          rw [hred]
          rcases List.mem_cons.mp ht with rfl | ht'
          · rw [← har]; exact le_of_not_lt hy
          · exact h2 t (hyl ▸ ht')
      | cons a l1' =>
        rw [List.cons_append, List.cons.injEq] at heq
        obtain ⟨rfl, hys⟩ := heq
        refine ⟨acc :: y :: l1', l2, ?_, ?_, ?_⟩
        · rw [hred, List.cons_append, List.cons_append, ← hys]
        · intro t ht
          rw [hred]
          rcases List.mem_cons.mp ht with rfl | ht'
          · exact h1 t (List.mem_cons_self _ _)
          · rcases List.mem_cons.mp ht' with rfl | ht''
            · exact lt_of_lt_of_le (h1 acc (List.mem_cons_self _ _)) (le_of_not_lt hy)
            · exact h1 t (List.mem_cons_of_mem _ ht'')
        · intro t ht
          rw [hred]
          exact h2 t ht

/-- The reduce-with-strict-less accumulator is a lower bound of the seed
and every element. -/
theorem reduceMinBy_le {α : Type} (f : α → ℚ) (xs : List α) (acc : α) :
    ∀ t ∈ acc :: xs, f (reduceMinBy f acc xs) ≤ f t := by
  obtain ⟨l1, l2, heq, h1, h2⟩ := reduceMinBy_split f xs acc
  intro t ht
  rw [heq] at ht
  rcases List.mem_append.mp ht with h | h
  · exact le_of_lt (h1 t h)
  · rcases List.mem_cons.mp h with rfl | h'
    · exact le_refl _
    · exact h2 t h'

/-- C1: for a non-empty loaded dataset, the most-disruptive reduction of
`updateSummaryCards` returns the storm whose `averageBoats` is minimum
over all loaded storms, and when several tie on the minimum the storm
encountered first in the dataset's iteration order is returned: the value
list splits into a strictly-greater prefix, the result, and a no-smaller
suffix. -/
theorem mostDisruptive_first_minimum (typhoonData : List (String × Storm))
    (h : typhoonData ≠ []) :
    ∃ m l1 l2,
      mostDisruptive typhoonData = some m ∧
      objectValues typhoonData = l1 ++ m :: l2 ∧
      (∀ t ∈ objectValues typhoonData, m.averageBoats ≤ t.averageBoats) ∧
      (∀ t ∈ l1, m.averageBoats < t.averageBoats) := by
  cases hv : objectValues typhoonData with
  | nil =>
    rw [objectValues, List.map_eq_nil_iff] at hv
    exact absurd hv h
  | cons x xs =>
    obtain ⟨l1, l2, heq, h1, h2⟩ := reduceMinBy_split (fun t => t.averageBoats) xs x
    refine ⟨reduceMinBy (fun t => t.averageBoats) x xs, l1, l2, ?_, ?_, ?_, ?_⟩
    · simp [mostDisruptive, hv]
    · exact heq
    · exact reduceMinBy_le _ xs x
    · exact h1

/-- Witness for C1: on a dataset where two storms tie on the minimum
`averageBoats`, the earlier one (`stormB`) is returned. -/
theorem mostDisruptive_first_minimum_witness :
    tiedDataset ≠ [] ∧
    (∃ m l1 l2,
      mostDisruptive tiedDataset = some m ∧
      objectValues tiedDataset = l1 ++ m :: l2 ∧
      (∀ t ∈ objectValues tiedDataset, m.averageBoats ≤ t.averageBoats) ∧
      (∀ t ∈ l1, m.averageBoats < t.averageBoats)) ∧
    mostDisruptive tiedDataset = some stormB :=
  ⟨by decide, mostDisruptive_first_minimum tiedDataset (by decide), by decide⟩

/-- `foldl min` agrees with the strict-less reduce accumulator. -/
theorem minimumOfList_eq_reduceMinBy (xs : List ℚ) :
    ∀ x : ℚ, minimumOfList x xs = reduceMinBy id x xs := by
  induction xs with
  | nil => intro x; rfl
  | cons y ys ih =>
    intro x
    have hstep : min x y = if y < x then y else x := by
      by_cases h : y < x
      · simp [h, min_eq_right (le_of_lt h)]
      · simp [h, min_eq_left (le_of_not_lt h)]
    calc minimumOfList x (y :: ys) = minimumOfList (min x y) ys := rfl
      _ = reduceMinBy id (min x y) ys := ih (min x y)
      _ = reduceMinBy id (if y < x then y else x) ys := by rw [hstep]
      _ = reduceMinBy id x (y :: ys) := by simp [reduceMinBy]

/-- Mapping `JSVal.num` over rationals coerces back losslessly. -/
theorem toNumbers_map_num (qs : List ℚ) :
    toNumbers (qs.map JSVal.num) = some qs := by
  induction qs with
  | nil => rfl
  | cons q qs ih => simp [toNumbers, toNumber, ih]

/-- `indexOf` on numeric values finds the first position of the searched
number when every earlier element is a different number. -/
theorem jsIndexOfFrom_num_append (m : ℚ) (l2 : List ℚ) :
    ∀ (l1 : List ℚ) (i : Int), (∀ q ∈ l1, q ≠ m) →
      jsIndexOfFrom ((l1 ++ m :: l2).map JSVal.num) (JSVal.num m) i = i + l1.length := by
  intro l1
  induction l1 with
  | nil =>
    intro i _
    simp [jsIndexOfFrom, jsStrictEq]
  | cons a l1' ih =>
    intro i hne
    have ha : a ≠ m := hne a (List.mem_cons_self _ _)
    have hrec := ih (i + 1) (fun q hq => hne q (List.mem_cons_of_mem _ hq))
    have hstep : jsStrictEq (JSVal.num a) (JSVal.num m) = false := by
      simp [jsStrictEq, ha]
    calc jsIndexOfFrom (((a :: l1') ++ m :: l2).map JSVal.num) (JSVal.num m) i
        = jsIndexOfFrom ((l1' ++ m :: l2).map JSVal.num) (JSVal.num m) (i + 1) := by
          simp only [List.cons_append, List.map_cons, jsIndexOfFrom, hstep]
          simp
      _ = i + 1 + (l1'.length : Int) := hrec
      _ = i + ((a :: l1').length : Int) := by
          simp only [List.length_cons]
          omega

/-- C2 counterexample: on the distance strings of the claim the numeric
minimum `3.1` is computed, but `indexOf` compares it to the strings under
strict equality, finds no match, and the function returns `Ground -1`,
not index 2. -/
theorem getClosestGround_string_distances :
    getClosestGround [JSVal.str "9.5", JSVal.str "10.2", JSVal.str "3.1"] = "Ground -1" ∧
    "Ground -1" ≠ "Ground 2" := by
  constructor
  · with_unfolding_all decide
  · decide

/-- C2 amended: on a non-empty list of numeric distances,
`getClosestGround` returns `Ground i` where `i` is the index of the first
element attaining the numeric minimum: the list splits into a
strictly-greater prefix `l1`, the minimum, and a no-smaller suffix, and
the reported index is `l1.length`. -/
theorem getClosestGround_numeric_first_min (qs : List ℚ) (h : qs ≠ []) :
    ∃ m l1 l2,
      qs = l1 ++ m :: l2 ∧
      (∀ q ∈ qs, m ≤ q) ∧
      (∀ q ∈ l1, m < q) ∧
      getClosestGround (qs.map JSVal.num) = "Ground " ++ toString ((l1.length : Int)) := by
  cases qs with
  | nil => exact absurd rfl h
  | cons x xs =>
    obtain ⟨l1, l2, heq, h1, h2⟩ := reduceMinBy_split id xs x
    simp only [id_eq] at h1 h2
    have hle : ∀ q ∈ x :: xs, reduceMinBy id x xs ≤ q := by
      intro q hq
      simpa using reduceMinBy_le id xs x q hq
    have hmin : jsMathMin ((x :: xs).map JSVal.num) = some (reduceMinBy id x xs) := by
      simp only [jsMathMin, toNumbers_map_num (x :: xs), minimumOfList_eq_reduceMinBy]
    have hidx : jsIndexOf ((x :: xs).map JSVal.num) (JSVal.num (reduceMinBy id x xs)) =
        (l1.length : Int) := by
      have hne : ∀ q ∈ l1, q ≠ reduceMinBy id x xs := fun q hq => ne_of_gt (h1 q hq)
      simp only [jsIndexOf]
      rw [heq, jsIndexOfFrom_num_append _ l2 l1 0 hne]
      simp
    refine ⟨reduceMinBy id x xs, l1, l2, heq, hle, h1, ?_⟩
    simp only [getClosestGround, hmin, hidx]

/-- Witness for C2's amended theorem at the numeric distances
`[9.5, 10.2, 3.1]`. -/
theorem getClosestGround_numeric_first_min_witness :
    ∃ m l1 l2,
      ([(19 : ℚ) / 2, 51 / 5, 31 / 10] : List ℚ) = l1 ++ m :: l2 ∧
      (∀ q ∈ ([(19 : ℚ) / 2, 51 / 5, 31 / 10] : List ℚ), m ≤ q) ∧
      (∀ q ∈ l1, m < q) ∧
      getClosestGround (([(19 : ℚ) / 2, 51 / 5, 31 / 10] : List ℚ).map JSVal.num) =
        "Ground " ++ toString ((l1.length : Int)) :=
  getClosestGround_numeric_first_min [(19 : ℚ) / 2, 51 / 5, 31 / 10] (by simp)

/-- The max fold returns one of the seed or the elements. -/
theorem foldl_max_mem (xs : List ℚ) : ∀ x : ℚ, maximumOfList x xs ∈ x :: xs := by
  induction xs with
  | nil => intro x; simp [maximumOfList]
  | cons y ys ih =>
    intro x
    show maximumOfList (max x y) ys ∈ x :: y :: ys
    rcases List.mem_cons.mp (ih (max x y)) with hm | hm
    · rcases max_choice x y with hxy | hxy
      · rw [hm, hxy]; exact List.mem_cons_self _ _
      · rw [hm, hxy]; exact List.mem_cons_of_mem _ (List.mem_cons_self _ _)
    · exact List.mem_cons_of_mem _ (List.mem_cons_of_mem _ hm)

/-- The max fold bounds the seed and every element from above. -/
theorem le_foldl_max (xs : List ℚ) : ∀ x : ℚ, ∀ q ∈ x :: xs, q ≤ maximumOfList x xs := by
  induction xs with
  | nil =>
    intro x q hq
    simp only [List.mem_singleton] at hq
    simp [maximumOfList, hq]
  | cons y ys ih =>
    intro x q hq
    have hunf : maximumOfList x (y :: ys) = maximumOfList (max x y) ys := rfl
    rw [hunf]
    have hseed : max x y ≤ maximumOfList (max x y) ys :=
      ih (max x y) (max x y) (List.mem_cons_self _ _)
    rcases List.mem_cons.mp hq with h | hq'
    · rw [h]
      exact le_trans (le_max_left x y) hseed
    · rcases List.mem_cons.mp hq' with h | hq''
      · rw [h]
        exact le_trans (le_max_right x y) hseed
      · exact ih (max x y) q (List.mem_cons_of_mem _ hq'')

/-- The min fold returns one of the seed or the elements. -/
theorem foldl_min_mem (xs : List ℚ) : ∀ x : ℚ, minimumOfList x xs ∈ x :: xs := by
  induction xs with
  | nil => intro x; simp [minimumOfList]
  | cons y ys ih =>
    intro x
    show minimumOfList (min x y) ys ∈ x :: y :: ys
    rcases List.mem_cons.mp (ih (min x y)) with hm | hm
    · rcases min_choice x y with hxy | hxy
      · rw [hm, hxy]; exact List.mem_cons_self _ _
      · rw [hm, hxy]; exact List.mem_cons_of_mem _ (List.mem_cons_self _ _)
    · exact List.mem_cons_of_mem _ (List.mem_cons_of_mem _ hm)

/-- The min fold bounds the seed and every element from below. -/
theorem foldl_min_le (xs : List ℚ) : ∀ x : ℚ, ∀ q ∈ x :: xs, minimumOfList x xs ≤ q := by
  induction xs with
  | nil =>
    intro x q hq
    simp only [List.mem_singleton] at hq
    simp [minimumOfList, hq]
  | cons y ys ih =>
    intro x q hq
    have hunf : minimumOfList x (y :: ys) = minimumOfList (min x y) ys := rfl
    rw [hunf]
    have hseed : minimumOfList (min x y) ys ≤ min x y :=
      ih (min x y) (min x y) (List.mem_cons_self _ _)
    rcases List.mem_cons.mp hq with h | hq'
    · rw [h]
      exact le_trans hseed (min_le_left x y)
    · rcases List.mem_cons.mp hq' with h | hq''
      · rw [h]
        exact le_trans hseed (min_le_right x y)
      · exact ih (min x y) q (List.mem_cons_of_mem _ hq'')

/-- `Math.max(|Math.min(d)|, |Math.max(d)|)` is the maximum of the
absolute values over a non-empty list. -/
theorem absMax_eq_max_abs (x : ℚ) (xs : List ℚ) :
    max |minimumOfList x xs| |maximumOfList x xs| = maximumOfList |x| (xs.map abs) := by
  apply le_antisymm
  · apply max_le
    · have hm := foldl_min_mem xs x
      have hmem : |minimumOfList x xs| ∈ |x| :: xs.map abs := by
        rcases List.mem_cons.mp hm with h | h
        · rw [h]; exact List.mem_cons_self _ _
        · exact List.mem_cons_of_mem _ (List.mem_map_of_mem abs h)
      exact le_foldl_max (xs.map abs) |x| _ hmem
    · have hm := foldl_max_mem xs x
      have hmem : |maximumOfList x xs| ∈ |x| :: xs.map abs := by
        rcases List.mem_cons.mp hm with h | h
        · rw [h]; exact List.mem_cons_self _ _
        · exact List.mem_cons_of_mem _ (List.mem_map_of_mem abs h)
      exact le_foldl_max (xs.map abs) |x| _ hmem
  · have hS := foldl_max_mem (xs.map abs) |x|
    have hex : ∃ q ∈ x :: xs, maximumOfList |x| (xs.map abs) = |q| := by
      rcases List.mem_cons.mp hS with h | h
      · exact ⟨x, List.mem_cons_self _ _, h⟩
      · obtain ⟨q, hq, hq2⟩ := List.mem_map.mp h
        exact ⟨q, List.mem_cons_of_mem _ hq, hq2.symm⟩
    obtain ⟨q, hq, hSq⟩ := hex
    rw [hSq]
    exact abs_le_max_abs_abs (foldl_min_le xs x q hq) (le_foldl_max xs x q hq)

/-- On non-empty series the scale computation yields exactly the
ceiling-scaled symmetric bounds, with the left bound driven by the
maximum absolute difference. -/
theorem dualAxisScales_eq (b0 d0 : ℚ) (bs ds : List ℚ) :
    dualAxisScales (b0 :: bs) (d0 :: ds) =
      some { rightMax := ⌈maximumOfList b0 bs * (6 / 5 : ℚ)⌉
             rightMin := -⌈maximumOfList b0 bs * (6 / 5 : ℚ)⌉
             leftMax := ⌈maximumOfList |d0| (ds.map abs) * (6 / 5 : ℚ)⌉
             leftMin := -⌈maximumOfList |d0| (ds.map abs) * (6 / 5 : ℚ)⌉ } := by
  simp only [dualAxisScales, absMax_eq_max_abs]

/-- C3: for every committed baseline and difference series the dual-axis
chart sets the right (baseline) axis to the symmetric range
`-ceil(max(baseline)*1.2) .. ceil(max(baseline)*1.2)` and the left
(percentage-difference) axis to
`-ceil(max(abs(difference))*1.2) .. ceil(max(abs(difference))*1.2)`;
in particular, for baseline `[10,20,30,0,5]` and difference
`[-50,10,-5,0,200]` the right bound is 36 and the left bound is 240. -/
theorem updateBoatDifferenceChart_scales (boatData : String → Option GroundBoatData) :
    (∀ b0 bs d0 ds,
      (updateBoatDifferenceChart boatData).1 = b0 :: bs →
      (updateBoatDifferenceChart boatData).2.1 = d0 :: ds →
      (updateBoatDifferenceChart boatData).2.2 =
        some { rightMax := ⌈maximumOfList b0 bs * (6 / 5 : ℚ)⌉
               rightMin := -⌈maximumOfList b0 bs * (6 / 5 : ℚ)⌉
               leftMax := ⌈maximumOfList |d0| (ds.map abs) * (6 / 5 : ℚ)⌉
               leftMin := -⌈maximumOfList |d0| (ds.map abs) * (6 / 5 : ℚ)⌉ }) ∧
    dualAxisScales [10, 20, 30, 0, 5] [-50, 10, -5, 0, 200] =
      some { rightMax := 36, rightMin := -36, leftMax := 240, leftMin := -240 } := by
  constructor
  · intro b0 bs d0 ds hb hd
    have hb' : (mkBoatSeries boatData).1 = b0 :: bs := hb
    have hd' : (mkBoatSeries boatData).2 = d0 :: ds := hd
    show dualAxisScales (mkBoatSeries boatData).1 (mkBoatSeries boatData).2 = _
    rw [hb', hd', dualAxisScales_eq]
  · with_unfolding_all decide

/-- Witness for C3 at the example `boatData`: both committed series are
non-empty and the theorem applies with its equation hypotheses discharged
definitionally. -/
theorem updateBoatDifferenceChart_scales_witness :
    (updateBoatDifferenceChart exampleBoatData).2.2 =
      some { rightMax := ⌈maximumOfList 10 [20, 30, 0, 5] * (6 / 5 : ℚ)⌉
             rightMin := -⌈maximumOfList 10 [20, 30, 0, 5] * (6 / 5 : ℚ)⌉
             leftMax := ⌈maximumOfList |(-50 : ℚ)| ([10, -5, 0, 200].map abs) * (6 / 5 : ℚ)⌉
             leftMin := -⌈maximumOfList |(-50 : ℚ)| ([10, -5, 0, 200].map abs) * (6 / 5 : ℚ)⌉ } :=
  (updateBoatDifferenceChart_scales exampleBoatData).1 10 [20, 30, 0, 5]
    (-50) [10, -5, 0, 200] rfl rfl

/-- When every remaining attempt sees an unavailable bridge or a thrown
fetch, the retry loop runs its full fuel, sleeps 1000 ms between
consecutive attempts (with at most one extra trailing sleep in the
unavailable case), and ends with either the incoming state untouched or
its data fields explicitly emptied. -/
theorem loadAttemptLoop_all_bad (env : ℕ → LoadEvent) :
    ∀ (fuel attempt : ℕ) (st : DashboardState),
      1 ≤ fuel → fuel + attempt = 6 →
      (∀ a, attempt ≤ a → a ≤ 5 →
        env a = LoadEvent.apiUnavailable ∨ env a = LoadEvent.fetchError) →
      ((loadAttemptLoop env fuel attempt st).state = st ∨
        (loadAttemptLoop env fuel attempt st).state =
          { st with typhoonData := [], fishingGrounds := [], fishingGroundsGeoJSON := none }) ∧
      (loadAttemptLoop env fuel attempt st).attempts = fuel ∧
      (∀ d ∈ (loadAttemptLoop env fuel attempt st).delays, d = 1000) ∧
      ((loadAttemptLoop env fuel attempt st).delays.length = fuel ∨
        (loadAttemptLoop env fuel attempt st).delays.length + 1 = fuel) := by
  intro fuel
  induction fuel with
  | zero =>
    intro attempt st h1 _ _
    exact absurd h1 (by omega)
  | succ fuel ih =>
    intro attempt st _ hsum hbad
    have hatt5 : attempt ≤ 5 := by omega
    rcases hbad attempt (le_refl _) hatt5 with hu | he
    · by_cases hf : fuel = 0
      · subst hf
        refine ⟨Or.inl ?_, ?_, ?_, Or.inl ?_⟩ <;>
          simp [loadAttemptLoop, hu]
      · have hfuel1 : 1 ≤ fuel := by omega
        obtain ⟨hstate, hatt, hdel, hlen⟩ :=
          ih (attempt + 1) st hfuel1 (by omega)
            (fun a ha1 ha2 => hbad a (by omega) ha2)
        have hunf : loadAttemptLoop env (fuel + 1) attempt st =
            { loadAttemptLoop env fuel (attempt + 1) st with
              delays := 1000 :: (loadAttemptLoop env fuel (attempt + 1) st).delays
              attempts := (loadAttemptLoop env fuel (attempt + 1) st).attempts + 1 } := by
          simp [loadAttemptLoop, hu]
        rw [hunf]
        refine ⟨hstate, by simp [hatt], ?_, ?_⟩
        · intro d hd
          rcases List.mem_cons.mp hd with h | h
          · exact h
          · exact hdel d h
        · simp only [List.length_cons]
          omega
    · by_cases h5 : attempt = 5
      · subst h5
        refine ⟨Or.inr ?_, ?_, ?_, Or.inr ?_⟩ <;>
          simp [loadAttemptLoop, he] <;> omega
      · have hfuel1 : 1 ≤ fuel := by omega
        obtain ⟨hstate, hatt, hdel, hlen⟩ :=
          ih (attempt + 1) st hfuel1 (by omega)
            (fun a ha1 ha2 => hbad a (by omega) ha2)
        have hunf : loadAttemptLoop env (fuel + 1) attempt st =
            { loadAttemptLoop env fuel (attempt + 1) st with
              delays := 1000 :: (loadAttemptLoop env fuel (attempt + 1) st).delays
              attempts := (loadAttemptLoop env fuel (attempt + 1) st).attempts + 1 } := by
          simp [loadAttemptLoop, he, h5]
        rw [hunf]
        refine ⟨hstate, by simp [hatt], ?_, ?_⟩
        · intro d hd
          rcases List.mem_cons.mp hd with h | h
          · exact h
          · exact hdel d h
        · simp only [List.length_cons]
          omega

/-- C4: when the bridge is unavailable or the fetch fails on every
attempt, `loadDashboardData` performs exactly 5 attempts separated by
fixed 1000 ms delays and resolves normally with an empty dataset: no
storms, no fishing grounds, no selection, nothing selectable — a
renderable empty state rather than a propagated failure. -/
theorem loadDashboardData_exhausted (env : ℕ → LoadEvent)
    (h : ∀ a, 1 ≤ a → a ≤ 5 →
      env a = LoadEvent.apiUnavailable ∨ env a = LoadEvent.fetchError) :
    (loadDashboardData env initialDashboardState).state.typhoonData = [] ∧
    (loadDashboardData env initialDashboardState).state.fishingGrounds = [] ∧
    (loadDashboardData env initialDashboardState).state.currentTyphoon = none ∧
    selectableStorms (loadDashboardData env initialDashboardState).state = [] ∧
    (loadDashboardData env initialDashboardState).attempts = 5 ∧
    (∀ d ∈ (loadDashboardData env initialDashboardState).delays, d = 1000) ∧
    4 ≤ (loadDashboardData env initialDashboardState).delays.length ∧
    (loadDashboardData env initialDashboardState).delays.length ≤ 5 := by
  obtain ⟨hstate, hatt, hdel, hlen⟩ :=
    loadAttemptLoop_all_bad env 5 1 initialDashboardState (by omega) (by omega)
      (fun a ha1 ha2 => h a ha1 ha2)
  have hempty : (loadDashboardData env initialDashboardState).state.typhoonData = [] ∧
      (loadDashboardData env initialDashboardState).state.fishingGrounds = [] ∧
      (loadDashboardData env initialDashboardState).state.currentTyphoon = none := by
    rcases hstate with h1 | h1 <;>
      rw [loadDashboardData, h1] <;> simp [initialDashboardState]
  have hlen' : (loadDashboardData env initialDashboardState).delays.length = 5 ∨
      (loadDashboardData env initialDashboardState).delays.length + 1 = 5 := hlen
  refine ⟨hempty.1, hempty.2.1, hempty.2.2, ?_, hatt, hdel, ?_, ?_⟩
  · rw [selectableStorms, hempty.1]
    rfl
  · omega
  · omega

/-- Witness for C4 with every attempt throwing: the hypothesis holds by
construction of `allErrorEnv`. -/
theorem loadDashboardData_exhausted_witness :
    (loadDashboardData allErrorEnv initialDashboardState).state.typhoonData = [] ∧
    (loadDashboardData allErrorEnv initialDashboardState).state.fishingGrounds = [] ∧
    (loadDashboardData allErrorEnv initialDashboardState).state.currentTyphoon = none ∧
    selectableStorms (loadDashboardData allErrorEnv initialDashboardState).state = [] ∧
    (loadDashboardData allErrorEnv initialDashboardState).attempts = 5 ∧
    (∀ d ∈ (loadDashboardData allErrorEnv initialDashboardState).delays, d = 1000) ∧
    4 ≤ (loadDashboardData allErrorEnv initialDashboardState).delays.length ∧
    (loadDashboardData allErrorEnv initialDashboardState).delays.length ≤ 5 :=
  loadDashboardData_exhausted allErrorEnv (fun _ _ _ => Or.inr rfl)

/-- C5: `loadTyphoonsByYear` keeps no request generation, so when the
user selects year 2020 and then year 2021 while 2020's fetch is still in
flight, and 2021's response resolves first, the stale 2020 response is
still committed afterwards and overwrites 2021's data: the Context Store
ends at year 2020 with 2020's storms although the latest-initiated scope
is 2021. -/
theorem staleResponse_overwrites_newer_scope :
    (resolveYearFetches initialDashboardState
        [(2021, some bundle2021), (2020, some bundle2020)]).currentYear = some 2020 ∧
    (resolveYearFetches initialDashboardState
        [(2021, some bundle2021), (2020, some bundle2020)]).typhoonData =
      bundle2020.typhoons ∧
    bundle2020.typhoons ≠ bundle2021.typhoons := by
  refine ⟨?_, ?_, ?_⟩ <;> decide

/-- C6 counterexample: selecting a storm in the nowcast dashboard does
trigger fetches through the bridge — `get_typhoon_data` and
`get_typhoon_dates` — contradicting the claim that entity selection never
fetches. -/
theorem nowcast_entity_selection_fetches :
    nowcastTyphoonChangeCalls "storm-a" =
      [ApiCall.getTyphoonData "storm-a", ApiCall.getTyphoonDates "storm-a"] ∧
    ApiCall.getTyphoonData "storm-a" ∈ nowcastTyphoonChangeCalls "storm-a" := by
  refine ⟨rfl, ?_⟩
  exact List.mem_cons_self _ _

/-- C6 amended: scope selection (historical year, nowcast date) always
triggers a gateway fetch; entity (storm) selection triggers no fetch in
the historical dashboard, but in the nowcast dashboard it does trigger
the per-storm detail fetch `get_typhoon_data` (followed by
`get_typhoon_dates`). -/
theorem selection_fetch_behaviour (uuid current : String) (year : Int)
    (resp : Option DashboardBundle) :
    historicalTyphoonChangeCalls uuid = [] ∧
    ApiCall.getDashboardDataByYear year ∈ loadTyphoonsByYearCalls year resp ∧
    ApiCall.getTyphoonData uuid ∈ nowcastTyphoonChangeCalls uuid ∧
    ApiCall.getTyphoonData current ∈ nowcastDateChangeCalls current := by
  refine ⟨rfl, ?_, ?_, ?_⟩
  · exact List.mem_cons_self _ _
  · exact List.mem_cons_self _ _
  · exact List.mem_cons_self _ _

/-- C7: a file whose lower-cased name does not end in `.zip` is rejected
by the `change` handler (input cleared, inline alert, no backend call)
and, even if Proceed is pressed with such a file held, no backend call is
made; a file whose lower-cased name ends in `.zip` stays selected and,
on Proceed with no drawn track saved, is forwarded to the
`upload_cyclone_track` backend call.  In particular `track.csv` is
rejected and `track.zip` is forwarded. -/
theorem zip_upload_gate (name country : String) (daysInput : Option String)
    (uploadPath : String) :
    (if jsEndsWith (jsToLowerCase name) ".zip" then
        trackFileInputChange (some name) =
          ({ files := some name, displayText := name },
           { alerts := [], backendCalls := [] }) ∧
        NowcastCall.uploadCycloneTrack name ∈
          (syntheticProceed
            ⟨country, DataSource.synthetic, daysInput, some name, none, uploadPath⟩).backendCalls
      else
        trackFileInputChange (some name) =
          ({ files := none, displayText := "Choose File" },
           { alerts := [zipChangeAlert], backendCalls := [] }) ∧
        (syntheticProceed
          ⟨country, DataSource.synthetic, daysInput, some name, none, uploadPath⟩).backendCalls =
          []) ∧
    (trackFileInputChange (some "track.csv")).2 =
      { alerts := [zipChangeAlert], backendCalls := [] } ∧
    (trackFileInputChange (some "track.csv")).1.files = none ∧
    (syntheticProceed
        ⟨"PH", DataSource.synthetic, none, some "track.zip", none, "extracted/track.shp"⟩).backendCalls =
      [NowcastCall.uploadCycloneTrack "track.zip",
       NowcastCall.runNowcast "PH" (some "extracted/track.shp") none] := by
  refine ⟨?_, ?_, ?_, ?_⟩
  · by_cases h : jsEndsWith (jsToLowerCase name) ".zip"
    · rw [if_pos h]
      constructor
      · simp [trackFileInputChange, h]
      · simp [syntheticProceed, h, runNowcastAnalysis]
    · rw [if_neg h]
      constructor
      · simp [trackFileInputChange, h]
      · simp [syntheticProceed, h]
  · decide
  · decide
  · decide

/-- C8: with the reachable invariant that the layer is attached exactly
when the visibility flag is set, toggling the boat-detections layer twice
restores both the visibility flag and the attached state, and neither
toggle issues any bridge call. -/
theorem toggleBoatDetections_involutive (s : BoatLayerView)
    (h : s.attachedToMap = s.visible) :
    (toggleBoatDetections (toggleBoatDetections s).1).1.visible = s.visible ∧
    (toggleBoatDetections (toggleBoatDetections s).1).1.attachedToMap = s.attachedToMap ∧
    (toggleBoatDetections s).2 = [] ∧
    (toggleBoatDetections (toggleBoatDetections s).1).2 = [] := by
  cases s with
  | mk layerBuilt visible attachedToMap toggleBtnText =>
    cases layerBuilt <;> cases visible <;> simp_all [toggleBoatDetections]

/-- Witness for C8 on a built, visible, attached layer. -/
theorem toggleBoatDetections_involutive_witness :
    (toggleBoatDetections (toggleBoatDetections builtVisibleLayer).1).1.visible =
      builtVisibleLayer.visible ∧
    (toggleBoatDetections (toggleBoatDetections builtVisibleLayer).1).1.attachedToMap =
      builtVisibleLayer.attachedToMap ∧
    (toggleBoatDetections builtVisibleLayer).2 = [] ∧
    (toggleBoatDetections (toggleBoatDetections builtVisibleLayer).1).2 = [] :=
  toggleBoatDetections_involutive builtVisibleLayer rfl

/-- C9 counterexample: a nowcast run on the IBTrACS source with the
invalid day count `"200"` is not blocked: no alert is raised and the
backend call `run_nowcast_analysis` is made with the silently substituted
default of 7 days. -/
theorem invalid_days_not_blocked :
    runNowcastAnalysis ⟨"Philippines", DataSource.ibtracs, some "200", none, none, ""⟩ =
      { alerts := []
        backendCalls := [NowcastCall.runNowcast "Philippines" none (some 7)] } := by
  with_unfolding_all decide

/-- C9 amended: an invalid day count (NaN after `parseInt`, below 1 or
above 90) on the IBTrACS source is not blocked client-side: it is
silently replaced by the default 7 (console warning only, no alert) and
the backend call proceeds with `days = 7`. -/
theorem invalid_days_defaulted (country s : String) (tf stp : Option String)
    (up : String)
    (h : jsParseInt s = none ∨ ∃ d, jsParseInt s = some d ∧ (d < 1 ∨ 90 < d)) :
    runNowcastAnalysis ⟨country, DataSource.ibtracs, some s, tf, stp, up⟩ =
      { alerts := [], backendCalls := [NowcastCall.runNowcast country none (some 7)] } := by
  have hdays : computeDays DataSource.ibtracs (some s) = some 7 := by
    rcases h with h | ⟨d, hd, hrange⟩
    · simp [computeDays, h]
    · simp [computeDays, hd, hrange]
  simp [runNowcastAnalysis, hdays]

/-- Witness for C9's amended theorem at the unparsable day count
`"abc"`. -/
theorem invalid_days_defaulted_witness :
    runNowcastAnalysis ⟨"PH", DataSource.ibtracs, some "abc", none, none, ""⟩ =
      { alerts := [], backendCalls := [NowcastCall.runNowcast "PH" none (some 7)] } :=
  invalid_days_defaulted "PH" "abc" none none "" (Or.inl (by with_unfolding_all decide))

/-- C10: whenever a year change commits a response, the dataset is
replaced wholesale, the committed year is the requested one, and the
selected storm becomes the first key of the new dataset in iteration
order — or none when the dataset is empty — regardless of the previous
selection. -/
theorem commitYearData_resets_selection (st : DashboardState) (year : Int)
    (b : DashboardBundle) :
    (commitYearData st year (some b)).typhoonData = b.typhoons ∧
    (commitYearData st year (some b)).currentTyphoon = b.typhoons.head?.map Prod.fst ∧
    (commitYearData st year (some b)).currentYear = some year := by
  cases hb : b.typhoons with
  | nil => simp [commitYearData, hb]
  | cons kv rest =>
    cases kv
    simp [commitYearData, hb]

end FishingToolkit
